import Mathlib

/-!
Verification of the MIKROE 4-20 mA R & T Click driver
(`MIKROE_4_20mA_RT_Click.h` / `MIKROE_4_20mA_RT_Click.cpp`).

Modelling conventions of this shallow embedding:

* C `float` arithmetic is modelled over a linear ordered field: the
  definitions are polymorphic in `α` and are instantiated at `ℚ` where
  concrete evaluation is wanted and at `ℝ` where the exponential function
  is needed.  The IEEE `NAN` value is modelled by `Option α` (`none` = NaN);
  NaN propagation through arithmetic and through the `>` comparison of
  `bitval2mA` is made explicit in the match arms.
* `uint8_t` / `uint16_t` / `uint32_t` values are `ℕ` with explicit modular
  reduction where the code relies on fixed-width behaviour: `usub32` is the
  wraparound-safe `uint32` subtraction `now - last`, and the `uint16` store
  of `T_Click::bitval_` reduces modulo `65536`.
* Hardware interaction is modelled by making the exchanged bytes explicit
  arguments and results: `read_bitval` is a function of the two bytes
  returned by the SPI exchange, `poll_EMA` takes the current `micros()`
  value and the raw sample that a read would return, and `set_mA` returns
  the two bytes that are clocked out.
-/

namespace RTClick

/-- Default SPI clock frequency in Hz for the R and T Click Boards
(`DEFAULT_RT_CLICK_SPI_CLOCK` in the header). -/
def DEFAULT_RT_CLICK_SPI_CLOCK : ℕ := 1000000

/-- Current threshold in mA below which the R Click reading indicates a fault
state (`R_CLICK_FAULT_mA = 3.8` in the header). -/
def R_CLICK_FAULT_mA (α : Type) [LinearOrderedField α] : α := 19 / 5

/-- Calibration structure `RT_Click_Calibration`: two calibration points
mapping bit values (`uint16_t`, modelled as `ℕ`) to currents in mA
(`float`, modelled as `α`). -/
structure RT_Click_Calibration (α : Type) where
  p1_mA : α
  p2_mA : α
  p1_bitval : ℕ
  p2_bitval : ℕ

/-- Wraparound-safe `uint32` subtraction `a - b`: for `a b < 2^32` this is
exactly the value the C expression `(uint32_t)(a - b)` produces. -/
def usub32 (a b : ℕ) : ℕ := (a + 4294967296 - b) % 4294967296

/-!  T_Click  -/

/-- State of a `T_Click` object: SPI clock, cable-select pin, calibration,
and the last set bit value `bitval_`. -/
structure T_Click (α : Type) where
  SPI_clock_ : ℕ
  CS_pin_ : ℕ
  calib_ : RT_Click_Calibration α
  bitval_ : ℕ

/-- Model of `T_Click::mA2bitval`:
`(uint16_t)round((mA - p1_mA) / (p2_mA - p1_mA) * (p2_bitval - p1_bitval) + p1_bitval)`.
The conversion of the rounded `float` to `uint16_t` is modelled as
`Int.toNat` followed by reduction modulo `65536`. -/
def T_Click.mA2bitval {α : Type} [LinearOrderedField α] [FloorRing α]
    (calib_ : RT_Click_Calibration α) (mA : α) : ℕ :=
  (round ((mA - calib_.p1_mA) / (calib_.p2_mA - calib_.p1_mA) *
      ((calib_.p2_bitval : α) - (calib_.p1_bitval : α)) +
      (calib_.p1_bitval : α))).toNat % 65536

/-- Model of `T_Click::set_mA`: computes `bitval_ = mA2bitval(mA)`, stores it,
and transfers `bitval_HI = ((bitval_ >> 8) & 0x0F) | 0x30` followed by
`bitval_LO = (byte)bitval_` over SPI.  Returns the updated state and the two
transferred bytes `(bitval_HI, bitval_LO)`. -/
def T_Click.set_mA {α : Type} [LinearOrderedField α] [FloorRing α]
    (self : T_Click α) (mA : α) : T_Click α × ℕ × ℕ :=
  let bitval_ := T_Click.mA2bitval self.calib_ mA
  let bitval_HI := ((bitval_ >>> 8) &&& 0x0F) ||| 0x30
  let bitval_LO := bitval_ % 256
  ({ self with bitval_ := bitval_ }, bitval_HI, bitval_LO)

/-- Model of `T_Click::get_last_set_bitval`: returns the stored `bitval_`
without any SPI transaction. -/
def T_Click.get_last_set_bitval {α : Type} (self : T_Click α) : ℕ :=
  self.bitval_

/-!  R_Click  -/

/-- State of an `R_Click` object constructed with the EMA constructor.
`EMA_bitval_` is the `float` member initialised to `NAN`, hence `Option ℝ`
with `none` for NaN.  `EMA_tick_` is the `uint32` microsecond timestamp of
the last oversampled reading. -/
structure R_Click where
  SPI_clock_ : ℕ
  CS_pin_ : ℕ
  calib_ : RT_Click_Calibration ℝ
  EMA_interval_ : ℕ
  EMA_LP_freq_ : ℝ
  EMA_bitval_ : Option ℝ
  EMA_at_startup_ : Bool
  EMA_tick_ : ℕ
  EMA_obtained_interval_ : ℕ

/-- Model of the EMA constructor
`R_Click::R_Click(CS_pin, calib, EMA_interval, EMA_LP_freq)`:
stores `EMA_LP_freq_ = EMA_LP_freq * 1e-6f` (Hz scaled to a per-microsecond
rate), `EMA_bitval_ = NAN`, `EMA_at_startup_ = true` and
`EMA_tick_ = micros()` (the construction-time clock value `now`, a
`uint32`).  The member `EMA_obtained_interval_` is not initialised by the
C++ code, so its indeterminate initial content is an explicit parameter. -/
noncomputable def R_Click.construct_EMA (CS_pin : ℕ) (calib : RT_Click_Calibration ℝ)
    (EMA_interval : ℕ) (EMA_LP_freq : ℝ) (now obtained0 : ℕ) : R_Click :=
  { SPI_clock_ := DEFAULT_RT_CLICK_SPI_CLOCK
    CS_pin_ := CS_pin
    calib_ := calib
    EMA_interval_ := EMA_interval
    EMA_LP_freq_ := EMA_LP_freq * (1 / 1000000)
    EMA_bitval_ := none
    EMA_at_startup_ := true
    EMA_tick_ := now % 4294967296
    EMA_obtained_interval_ := obtained0 }

/-- The linear part of `R_Click::bitval2mA`:
`p1_mA + (bitval - p1_bitval) / float(p2_bitval - p1_bitval) * (p2_mA - p1_mA)`
(the `uint16` difference `p2_bitval - p1_bitval` is promoted to `int` in C
before the `float` conversion, hence the cast difference here). -/
def R_Click.mA_of_bitval {α : Type} [LinearOrderedField α]
    (calib_ : RT_Click_Calibration α) (bitval : α) : α :=
  calib_.p1_mA + (bitval - (calib_.p1_bitval : α)) /
      ((calib_.p2_bitval : α) - (calib_.p1_bitval : α)) *
      (calib_.p2_mA - calib_.p1_mA)

/-- Model of `R_Click::bitval2mA`:
`return (mA > R_CLICK_FAULT_mA ? mA : NAN);`.
A NaN input bit value (the `none` arm) propagates through the arithmetic,
makes the `>` comparison false, and therefore yields `NAN`. -/
def R_Click.bitval2mA {α : Type} [LinearOrderedField α]
    (calib_ : RT_Click_Calibration α) (bitval : Option α) : Option α :=
  match bitval with
  | none => none
  | some b =>
    let mA := R_Click.mA_of_bitval calib_ b
    if R_CLICK_FAULT_mA α < mA then some mA else none

/-- Model of `R_Click::read_bitval` as a function of the two bytes returned
by the SPI exchange: `data_HI = transfer(0xFF) & 0x1F`, `data_LO =
transfer(0xFF)`, result `(uint16_t)((data_HI << 8) | data_LO) >> 1`. -/
def R_Click.read_bitval (data_HI data_LO : ℕ) : ℕ :=
  (((data_HI &&& 0x1F) <<< 8) ||| data_LO) >>> 1

/-- Reconstruction following the spec sentence literally, for comparison
with `R_Click.read_bitval`: mask off the FIRST FIVE bits of the first
returned byte (i.e. keep only its low three bits) before concatenation
with the second byte, then shift right by one. -/
def read_bitval_maskFirstFive (data_HI data_LO : ℕ) : ℕ :=
  (((data_HI &&& 0x07) <<< 8) ||| data_LO) >>> 1

/-- Model of `R_Click::read_mA`: `bitval2mA(read_bitval())`, as a function
of the two bytes returned by the SPI exchange. -/
def R_Click.read_mA {α : Type} [LinearOrderedField α]
    (calib_ : RT_Click_Calibration α) (data_HI data_LO : ℕ) : Option α :=
  R_Click.bitval2mA calib_ (some ((R_Click.read_bitval data_HI data_LO : ℕ) : α))

/-- Smoothing factor computed by `R_Click::poll_EMA`:
`alpha = 1.f - exp(-float(EMA_obtained_interval_) * EMA_LP_freq_)`. -/
noncomputable def R_Click.alphaOf (lp : ℝ) (dt : ℕ) : ℝ :=
  1 - Real.exp (-(dt : ℝ) * lp)

/-- Model of `R_Click::poll_EMA`.  `now` is the `micros()` value read at the
top of the call and `raw` is the bit value that `read_bitval()` returns if
a sample is taken.  Returns the updated object state and the `bool` result.
If `(now - EMA_tick_) >= EMA_interval_` (uint32 subtraction), the obtained
interval is stored, `alpha` is recomputed from it, and the sample is either
seeded (startup) or blended; otherwise nothing changes and `false` is
returned. -/
noncomputable def R_Click.poll_EMA (self : R_Click) (now raw : ℕ) :
    R_Click × Bool :=
  if self.EMA_interval_ ≤ usub32 now self.EMA_tick_ then
    let EMA_obtained_interval_ := usub32 now self.EMA_tick_
    let alpha := R_Click.alphaOf self.EMA_LP_freq_ EMA_obtained_interval_
    if self.EMA_at_startup_ then
      ({ self with
          EMA_obtained_interval_ := EMA_obtained_interval_
          EMA_at_startup_ := false
          EMA_bitval_ := some (raw : ℝ)
          EMA_tick_ := now }, true)
    else
      ({ self with
          EMA_obtained_interval_ := EMA_obtained_interval_
          EMA_bitval_ :=
            match self.EMA_bitval_ with
            | some r => some (r + alpha * ((raw : ℝ) - r))
            | none => none
          EMA_tick_ := now }, true)
  else (self, false)

/-- Model of `R_Click::get_EMA_bitval`: returns `EMA_bitval_` as is. -/
def R_Click.get_EMA_bitval (self : R_Click) : Option ℝ :=
  self.EMA_bitval_

/-- Model of `R_Click::get_EMA_mA`: `bitval2mA(EMA_bitval_)`. -/
noncomputable def R_Click.get_EMA_mA (self : R_Click) : Option ℝ :=
  R_Click.bitval2mA self.calib_ self.EMA_bitval_

/-- Model of `R_Click::get_EMA_obtained_interval`. -/
def R_Click.get_EMA_obtained_interval (self : R_Click) : ℕ :=
  self.EMA_obtained_interval_

/-- A sequence of `poll_EMA` calls: each event is a pair
`(micros() value, raw sample that a read would return)`. -/
noncomputable def R_Click.runPolls (self : R_Click) (evs : List (ℕ × ℕ)) :
    R_Click :=
  evs.foldl (fun s e => (R_Click.poll_EMA s e.1 e.2).1) self

/-!  Concrete instances used by the witnesses  -/

/-- The calibration of the end-to-end scenario of the spec, over `ℚ`. -/
def calibQ : RT_Click_Calibration ℚ := ⟨4, 20, 800, 4000⟩

/-- The calibration of the end-to-end scenario of the spec, over `ℝ`. -/
noncomputable def calibR : RT_Click_Calibration ℝ := ⟨4, 20, 800, 4000⟩

/-- A `T_Click` object as constructed by `T_Click(6, calib)`. -/
def tclickQ : T_Click ℚ := ⟨DEFAULT_RT_CLICK_SPI_CLOCK, 6, calibQ, 0⟩

/-- An `R_Click` object freshly constructed with the EMA constructor at
time 0, oversampling interval 2000 µs, cut-off frequency 10 Hz. -/
noncomputable def rclick0 : R_Click := R_Click.construct_EMA 5 calibR 2000 10 0 0

/-- The state of `rclick0` after one sampling `poll_EMA` call at
`micros() = 2000` that read the raw bit value 2400. -/
noncomputable def rclick1 : R_Click := (R_Click.poll_EMA rclick0 2000 2400).1

/-!  Helper lemmas  -/

/-- Any concrete current that `bitval2mA` returns exceeds the fault
threshold, and equals the linear map of some concrete input bit value. -/
theorem bitval2mA_some_gt {α : Type} [LinearOrderedField α]
    {c : RT_Click_Calibration α} {bv : Option α} {m : α}
    (h : R_Click.bitval2mA c bv = some m) :
    R_CLICK_FAULT_mA α < m ∧
      ∃ b, bv = some b ∧ m = R_Click.mA_of_bitval c b := by
  cases bv with
  | none => simp [R_Click.bitval2mA] at h
  | some b =>
    by_cases hc : R_CLICK_FAULT_mA α < R_Click.mA_of_bitval c b
    · simp only [R_Click.bitval2mA, if_pos hc, Option.some.injEq] at h
      exact ⟨h ▸ hc, b, rfl, h.symm⟩
    · simp [R_Click.bitval2mA, hc] at h

/-- A `poll_EMA` call that does not take a sample preserves the invariant
that a filter still in the Seeding state holds the NaN initial value;
a call that takes a sample leaves the Seeding state. -/
theorem poll_EMA_startup_inv (s : R_Click) (now raw : ℕ)
    (h : s.EMA_at_startup_ = true → s.EMA_bitval_ = none) :
    (R_Click.poll_EMA s now raw).1.EMA_at_startup_ = true →
      (R_Click.poll_EMA s now raw).1.EMA_bitval_ = none := by
  intro hst
  by_cases hc : s.EMA_interval_ ≤ usub32 now s.EMA_tick_
  · cases hb : s.EMA_at_startup_ with
    | true => simp [R_Click.poll_EMA, hc, hb] at hst
    | false =>
      simp only [R_Click.poll_EMA, if_pos hc, hb, Bool.false_eq_true,
        if_neg (Bool.false_ne_true)] at hst
      exact absurd hst (by simp [hb])
  · simp only [R_Click.poll_EMA, if_neg hc] at hst ⊢
    exact h hst

/-- The Seeding-state invariant of `poll_EMA_startup_inv`, propagated over
an arbitrary sequence of `poll_EMA` calls. -/
theorem runPolls_startup_inv (s : R_Click) (evs : List (ℕ × ℕ))
    (h : s.EMA_at_startup_ = true → s.EMA_bitval_ = none) :
    (R_Click.runPolls s evs).EMA_at_startup_ = true →
      (R_Click.runPolls s evs).EMA_bitval_ = none := by
  induction evs generalizing s with
  | nil => exact h
  | cons e rest ih =>
    exact ih (R_Click.poll_EMA s e.1 e.2).1 (poll_EMA_startup_inv s e.1 e.2 h)

/-!  Claims  -/

/-- C3: whenever the elapsed `uint32` time `now - EMA_tick_` is strictly
below the configured oversampling interval, `poll_EMA` returns `false` and
leaves the entire filter state (running EMA value, timestamp, startup flag,
obtained interval — the whole object) unchanged, independently of whatever
raw value a read would have produced. -/
theorem claim_C3 (s : R_Click) (now raw : ℕ)
    (h : usub32 now s.EMA_tick_ < s.EMA_interval_) :
    R_Click.poll_EMA s now raw = (s, false) := by
  unfold R_Click.poll_EMA
  rw [if_neg (not_le.mpr h)]

/-- C3 witness: a concrete not-yet-due call changes nothing. -/
theorem claim_C3_witness :
    usub32 1000 rclick0.EMA_tick_ < rclick0.EMA_interval_ ∧
      R_Click.poll_EMA rclick0 1000 42 = (rclick0, false) :=
  ⟨by decide, claim_C3 rclick0 1000 42 (by decide)⟩

/-- C9: the elapsed interval that `poll_EMA` uses — both in the
sampling-due test and as the stored obtained interval — is the `uint32`
subtraction `(now - last) mod 2^32`, and that subtraction recovers the true
elapsed count `d` whenever `d < 2^32`, even when the microsecond counter
wrapped between the two reads. -/
theorem claim_C9 :
    (∀ last d : ℕ, d < 4294967296 →
      usub32 ((last + d) % 4294967296) (last % 4294967296) = d) ∧
    (∀ (s : R_Click) (now raw : ℕ), s.EMA_interval_ ≤ usub32 now s.EMA_tick_ →
      (R_Click.poll_EMA s now raw).1.EMA_obtained_interval_ =
        usub32 now s.EMA_tick_) ∧
    (∀ (s : R_Click) (now raw : ℕ),
      (R_Click.poll_EMA s now raw).2 = true ↔
        s.EMA_interval_ ≤ usub32 now s.EMA_tick_) := by
  refine ⟨?_, ?_, ?_⟩
  · intro last d h
    unfold usub32
    omega
  · intro s now raw h
    cases hb : s.EMA_at_startup_ <;> simp [R_Click.poll_EMA, h, hb]
  · intro s now raw
    by_cases h : s.EMA_interval_ ≤ usub32 now s.EMA_tick_ <;>
      cases hb : s.EMA_at_startup_ <;> simp [R_Click.poll_EMA, h, hb]

/-- C9 witness: a wrapped pair of timestamps (true elapsed 600 µs across
the 2^32 boundary) and a concrete sampling call. -/
theorem claim_C9_witness :
    usub32 ((4294967000 + 600) % 4294967296) (4294967000 % 4294967296) = 600 ∧
      (R_Click.poll_EMA rclick0 2000 2400).1.EMA_obtained_interval_ =
        usub32 2000 rclick0.EMA_tick_ :=
  ⟨claim_C9.1 4294967000 600 (by norm_num),
   claim_C9.2.1 rclick0 2000 2400 (by decide)⟩

/-- C2: the first sampling `poll_EMA` call seeds the running EMA value with
exactly the raw sample (no blending) and moves the filter from Seeding to
Steady; every later sampling call blends by
`running += alpha * (raw - running)`; and the Seeding-to-Steady transition
is one-way: once `EMA_at_startup_` is `false`, no `poll_EMA` call ever makes
it `true` again. -/
theorem claim_C2 :
    (∀ (s : R_Click) (now raw : ℕ), s.EMA_at_startup_ = true →
      s.EMA_interval_ ≤ usub32 now s.EMA_tick_ →
      (R_Click.poll_EMA s now raw).1.EMA_bitval_ = some ((raw : ℕ) : ℝ) ∧
      (R_Click.poll_EMA s now raw).1.EMA_at_startup_ = false ∧
      (R_Click.poll_EMA s now raw).2 = true) ∧
    (∀ (s : R_Click) (now raw : ℕ) (r : ℝ), s.EMA_at_startup_ = false →
      s.EMA_bitval_ = some r →
      s.EMA_interval_ ≤ usub32 now s.EMA_tick_ →
      (R_Click.poll_EMA s now raw).1.EMA_bitval_ =
        some (r + R_Click.alphaOf s.EMA_LP_freq_ (usub32 now s.EMA_tick_) *
          ((raw : ℝ) - r))) ∧
    (∀ (s : R_Click) (now raw : ℕ), s.EMA_at_startup_ = false →
      (R_Click.poll_EMA s now raw).1.EMA_at_startup_ = false) := by
  refine ⟨?_, ?_, ?_⟩
  · intro s now raw hs hc
    simp [R_Click.poll_EMA, hc, hs]
  · intro s now raw r hs hb hc
    simp [R_Click.poll_EMA, hc, hs, hb]
  · intro s now raw hs
    by_cases hc : s.EMA_interval_ ≤ usub32 now s.EMA_tick_ <;>
      simp [R_Click.poll_EMA, hc, hs]

/-- C2 witness: the concrete first sample 2400 is seeded exactly, the
transition happens, and a second sampling call blends with the recomputed
smoothing factor. -/
theorem claim_C2_witness :
    ((R_Click.poll_EMA rclick0 2000 2400).1.EMA_bitval_ = some ((2400 : ℕ) : ℝ) ∧
      (R_Click.poll_EMA rclick0 2000 2400).1.EMA_at_startup_ = false ∧
      (R_Click.poll_EMA rclick0 2000 2400).2 = true) ∧
    (R_Click.poll_EMA rclick1 6000 100).1.EMA_bitval_ =
      some (((2400 : ℕ) : ℝ) +
        R_Click.alphaOf rclick1.EMA_LP_freq_ (usub32 6000 rclick1.EMA_tick_) *
        (((100 : ℕ) : ℝ) - ((2400 : ℕ) : ℝ))) ∧
    (R_Click.poll_EMA rclick1 6000 100).1.EMA_at_startup_ = false :=
  ⟨claim_C2.1 rclick0 2000 2400 (by decide) (by decide),
   claim_C2.2.1 rclick1 6000 100 ((2400 : ℕ) : ℝ) (by decide) rfl (by decide),
   claim_C2.2.2 rclick1 6000 100 (by decide)⟩

/-- C1: the smoothing factor is recomputed on every sampling call from the
actually obtained interval as `alpha = 1 - exp(-obtainedInterval *
cutoffRateConstant)`; the rate constant is fixed once at construction as
the configured cut-off frequency in Hz times `1e-6` (a per-microsecond
rate); and `alpha` is strictly increasing in the obtained interval, so a
larger (e.g. doubled) obtained interval always yields a larger recomputed
`alpha`, never a stale value. -/
theorem claim_C1 :
    (∀ (CS : ℕ) (calib : RT_Click_Calibration ℝ) (iv : ℕ) (f : ℝ) (t0 ob : ℕ),
      (R_Click.construct_EMA CS calib iv f t0 ob).EMA_LP_freq_ =
        f * (1 / 1000000)) ∧
    (∀ (s : R_Click) (now raw : ℕ) (r : ℝ), s.EMA_at_startup_ = false →
      s.EMA_bitval_ = some r →
      s.EMA_interval_ ≤ usub32 now s.EMA_tick_ →
      (R_Click.poll_EMA s now raw).1.EMA_bitval_ =
        some (r + (1 - Real.exp (-(usub32 now s.EMA_tick_ : ℝ) *
          s.EMA_LP_freq_)) * ((raw : ℝ) - r))) ∧
    (∀ lp : ℝ, 0 < lp → ∀ d1 d2 : ℕ, d1 < d2 →
      R_Click.alphaOf lp d1 < R_Click.alphaOf lp d2) := by
  refine ⟨fun _ _ _ _ _ _ => rfl, ?_, ?_⟩
  · intro s now raw r hs hb hc
    simp [R_Click.poll_EMA, hc, hs, hb, R_Click.alphaOf]
  · intro lp hlp d1 d2 h
    unfold R_Click.alphaOf
    have h1 : (d1 : ℝ) * lp < (d2 : ℝ) * lp :=
      mul_lt_mul_of_pos_right (by exact_mod_cast h) hlp
    have h2 := Real.exp_lt_exp.mpr (show -(d2 : ℝ) * lp < -(d1 : ℝ) * lp by linarith)
    linarith

/-- C1 witness: the constructed rate constant, a concrete blended call
exhibiting the exponential formula, and a doubled interval giving a larger
`alpha`. -/
theorem claim_C1_witness :
    (R_Click.construct_EMA 5 calibR 2000 10 0 0).EMA_LP_freq_ =
      10 * (1 / 1000000) ∧
    (R_Click.poll_EMA rclick1 6000 100).1.EMA_bitval_ =
      some (((2400 : ℕ) : ℝ) +
        (1 - Real.exp (-(usub32 6000 rclick1.EMA_tick_ : ℝ) *
          rclick1.EMA_LP_freq_)) * (((100 : ℕ) : ℝ) - ((2400 : ℕ) : ℝ))) ∧
    R_Click.alphaOf (1 / 100000) 2000 < R_Click.alphaOf (1 / 100000) 4000 :=
  ⟨claim_C1.1 5 calibR 2000 10 0 0,
   claim_C1.2.1 rclick1 6000 100 ((2400 : ℕ) : ℝ) (by decide) rfl (by decide),
   claim_C1.2.2 (1 / 100000) (by norm_num) 2000 4000 (by norm_num)⟩

/-- C8: while the filter is still in the Seeding state after construction
and any sequence of `poll_EMA` calls, `get_EMA_bitval` returns the NaN
sentinel the running value was initialised with, and `get_EMA_mA` returns
the same NaN fault sentinel, because `bitval2mA` maps a NaN input to NaN. -/
theorem claim_C8 :
    (∀ c : RT_Click_Calibration ℝ, R_Click.bitval2mA c none = none) ∧
    (∀ (CS : ℕ) (calib : RT_Click_Calibration ℝ) (iv : ℕ) (f : ℝ)
      (t0 ob : ℕ) (evs : List (ℕ × ℕ)),
      (R_Click.runPolls (R_Click.construct_EMA CS calib iv f t0 ob)
          evs).EMA_at_startup_ = true →
      R_Click.get_EMA_bitval
          (R_Click.runPolls (R_Click.construct_EMA CS calib iv f t0 ob) evs) =
        none ∧
      R_Click.get_EMA_mA
          (R_Click.runPolls (R_Click.construct_EMA CS calib iv f t0 ob) evs) =
        none) := by
  refine ⟨fun _ => rfl, ?_⟩
  intro CS calib iv f t0 ob evs h
  have hnone :=
    runPolls_startup_inv (R_Click.construct_EMA CS calib iv f t0 ob) evs
      (fun _ => rfl) h
  refine ⟨hnone, ?_⟩
  unfold R_Click.get_EMA_mA
  rw [hnone]
  rfl

/-- C8 witness: a freshly constructed filter polled once too early is still
Seeding, and both accessors return the NaN sentinel. -/
theorem claim_C8_witness :
    (R_Click.runPolls (R_Click.construct_EMA 5 calibR 2000 10 0 0)
        [(1000, 42)]).EMA_at_startup_ = true ∧
    R_Click.get_EMA_bitval
        (R_Click.runPolls (R_Click.construct_EMA 5 calibR 2000 10 0 0)
          [(1000, 42)]) = none ∧
    R_Click.get_EMA_mA
        (R_Click.runPolls (R_Click.construct_EMA 5 calibR 2000 10 0 0)
          [(1000, 42)]) = none :=
  ⟨by decide,
   (claim_C8.2 5 calibR 2000 10 0 0 [(1000, 42)] (by decide)).1,
   (claim_C8.2 5 calibR 2000 10 0 0 [(1000, 42)] (by decide)).2⟩

/-- C4: `bitval2mA` classifies the converted current: a concrete converted
current `mA ≤ 3.8` is turned into the NaN fault sentinel and a concrete
`mA > 3.8` is returned unchanged; consequently neither the instantaneous
path `read_mA` nor the filtered path `get_EMA_mA` ever returns a concrete
current at or below the 3.8 mA threshold. -/
theorem claim_C4 :
    (∀ (c : RT_Click_Calibration ℚ) (b : ℚ),
      (R_Click.mA_of_bitval c b ≤ R_CLICK_FAULT_mA ℚ →
        R_Click.bitval2mA c (some b) = none) ∧
      (R_CLICK_FAULT_mA ℚ < R_Click.mA_of_bitval c b →
        R_Click.bitval2mA c (some b) = some (R_Click.mA_of_bitval c b))) ∧
    (∀ (c : RT_Click_Calibration ℚ) (data_HI data_LO : ℕ) (m : ℚ),
      R_Click.read_mA c data_HI data_LO = some m → R_CLICK_FAULT_mA ℚ < m) ∧
    (∀ (s : R_Click) (m : ℝ),
      R_Click.get_EMA_mA s = some m → R_CLICK_FAULT_mA ℝ < m) := by
  refine ⟨?_, ?_, ?_⟩
  · intro c b
    constructor
    · intro h
      simp [R_Click.bitval2mA, not_lt.mpr h]
    · intro h
      simp [R_Click.bitval2mA, if_pos h]
  · intro c data_HI data_LO m h
    exact (bitval2mA_some_gt h).1
  · intro s m h
    exact (bitval2mA_some_gt h).1

/-- C4 witness: with the scenario calibration, bit value 0 converts to
0 mA and is reported as the fault sentinel; bit value 2400 converts to
12 mA and is returned unchanged; concrete currents returned by `read_mA`
and `get_EMA_mA` exceed the threshold. -/
theorem claim_C4_witness :
    R_Click.bitval2mA calibQ (some 0) = none ∧
    R_Click.bitval2mA calibQ (some 2400) = some (R_Click.mA_of_bitval calibQ 2400) ∧
    R_CLICK_FAULT_mA ℚ <
      R_Click.mA_of_bitval calibQ ((R_Click.read_bitval 18 192 : ℕ) : ℚ) ∧
    R_CLICK_FAULT_mA ℝ < R_Click.mA_of_bitval calibR ((2400 : ℕ) : ℝ) := by
  have h0 : R_Click.mA_of_bitval calibQ 0 ≤ R_CLICK_FAULT_mA ℚ := by
    norm_num [R_Click.mA_of_bitval, calibQ, R_CLICK_FAULT_mA]
  have h1 : R_CLICK_FAULT_mA ℚ < R_Click.mA_of_bitval calibQ 2400 := by
    norm_num [R_Click.mA_of_bitval, calibQ, R_CLICK_FAULT_mA]
  have hrb : R_Click.read_bitval 18 192 = 2400 := by decide
  have h2 : R_CLICK_FAULT_mA ℚ <
      R_Click.mA_of_bitval calibQ ((R_Click.read_bitval 18 192 : ℕ) : ℚ) := by
    rw [hrb]
    norm_num [R_Click.mA_of_bitval, calibQ, R_CLICK_FAULT_mA]
  have hmA : R_Click.read_mA calibQ 18 192 =
      some (R_Click.mA_of_bitval calibQ ((R_Click.read_bitval 18 192 : ℕ) : ℚ)) := by
    unfold R_Click.read_mA
    exact ((claim_C4.1 calibQ _).2 h2)
  have h3 : R_CLICK_FAULT_mA ℝ <
      R_Click.mA_of_bitval calibR ((2400 : ℕ) : ℝ) := by
    norm_num [R_Click.mA_of_bitval, calibR, R_CLICK_FAULT_mA]
  have hEMA : R_Click.get_EMA_mA rclick1 =
      some (R_Click.mA_of_bitval calibR ((2400 : ℕ) : ℝ)) := by
    unfold R_Click.get_EMA_mA
    have hb : rclick1.EMA_bitval_ = some ((2400 : ℕ) : ℝ) := rfl
    have hcal : rclick1.calib_ = calibR := rfl
    rw [hb, hcal]
    simp only [R_Click.bitval2mA]
    rw [if_pos h3]
  exact ⟨(claim_C4.1 calibQ 0).1 h0, (claim_C4.1 calibQ 2400).2 h1,
    claim_C4.2.1 calibQ 18 192 _ hmA, claim_C4.2.2 rclick1 _ hEMA⟩

/-- C5 counterexample: the claim says the FIRST FIVE bits of the first
returned byte are masked off before concatenation; the code masks with
`0x1F`, which keeps the low five bits and masks off only the first three.
At the concrete byte pair `(0x08, 0x00)` the code reconstructs 1024 while
the claimed masking yields 0. -/
theorem claim_C5_counterexample :
    R_Click.read_bitval 8 0 = 1024 ∧ read_bitval_maskFirstFive 8 0 = 0 ∧
      R_Click.read_bitval 8 0 ≠ read_bitval_maskFirstFive 8 0 := by decide

/-- C5 (amended): `read_bitval` reconstructs the reading by masking off the
first THREE bits of the first returned byte (keeping its low five bits,
`data_HI % 32`) before concatenation with the second byte; the combined
quantity fits in 13 bits and is shifted right by one, so for every returned
byte pair the result is an unsigned integer in [0, 4095]. -/
theorem claim_C5_amended (data_HI data_LO : ℕ) (h : data_LO < 256) :
    R_Click.read_bitval data_HI data_LO = ((data_HI % 32) * 256 + data_LO) / 2 ∧
    (((data_HI &&& 0x1F) <<< 8) ||| data_LO) < 8192 ∧
    R_Click.read_bitval data_HI data_LO ≤ 4095 := by
  have h1 : data_HI &&& 0x1F = data_HI % 32 := by
    have h2 := Nat.and_pow_two_sub_one_eq_mod data_HI 5
    norm_num at h2
    exact h2
  have h3 : ((data_HI % 32) <<< 8) ||| data_LO = (data_HI % 32) * 256 + data_LO := by
    rw [Nat.shiftLeft_eq]
    have h4 := Nat.mul_add_lt_is_or (i := 8) (by norm_num; exact h) (data_HI % 32)
    norm_num at h4 ⊢
    rw [Nat.mul_comm] at h4
    omega
  have h5 : (((data_HI &&& 0x1F) <<< 8) ||| data_LO) < 8192 := by
    rw [h1, h3]
    omega
  refine ⟨?_, h5, ?_⟩
  · unfold R_Click.read_bitval
    rw [h1, h3, Nat.shiftRight_eq_div_pow, pow_one]
  · unfold R_Click.read_bitval
    rw [Nat.shiftRight_eq_div_pow, pow_one]
    omega

/-- C5 witness: the concrete byte pair `(0x12, 0xC0)` reconstructs to
2400 ∈ [0, 4095]. -/
theorem claim_C5_witness :
    R_Click.read_bitval 18 192 = ((18 % 32) * 256 + 192) / 2 ∧
    (((18 &&& 0x1F) <<< 8) ||| 192) < 8192 ∧
    R_Click.read_bitval 18 192 ≤ 4095 :=
  claim_C5_amended 18 192 (by norm_num)

/-- C6: end-to-end transmitter scenario with calibration
`{4.0 mA, 20.0 mA, 800, 4000}`: `set_mA(12.0)` computes the raw bit value
2400 through the rounded inverse linear map, transfers exactly the bytes
`0x30 | (2400 >> 8)` and `2400 & 0xFF` over SPI, and records 2400 so that
`get_last_set_bitval` returns it without a further SPI transaction. -/
theorem claim_C6 :
    T_Click.mA2bitval calibQ 12 = 2400 ∧
    (T_Click.set_mA tclickQ 12).2.1 = (0x30 ||| (2400 >>> 8)) ∧
    (T_Click.set_mA tclickQ 12).2.2 = (2400 &&& 0xFF) ∧
    T_Click.get_last_set_bitval (T_Click.set_mA tclickQ 12).1 = 2400 := by
  have hc : tclickQ.calib_ = calibQ := rfl
  have h : T_Click.mA2bitval calibQ 12 = 2400 := by
    unfold T_Click.mA2bitval calibQ
    norm_num
    decide
  refine ⟨h, ?_, ?_, ?_⟩ <;>
    simp only [T_Click.set_mA, T_Click.get_last_set_bitval, hc, h] <;> decide

/-- C7: round-trip law. For every calibration with distinct mA points and
distinct bit-value points (ordered in the same direction), bit values in
the `uint16` range, and every raw value `x` inside the calibrated span
whose converted current exceeds the 3.8 mA fault threshold,
`mA2bitval (bitval2mA x)` lands within ±1 bit of `x`. -/
theorem claim_C7 (c : RT_Click_Calibration ℚ) (x : ℕ) (m : ℚ)
    (hdir : c.p1_mA < c.p2_mA ↔ c.p1_bitval < c.p2_bitval)
    (hmA : c.p1_mA ≠ c.p2_mA) (hbit : c.p1_bitval ≠ c.p2_bitval)
    (hb1 : c.p1_bitval < 65536) (hb2 : c.p2_bitval < 65536)
    (hx1 : min c.p1_bitval c.p2_bitval ≤ x)
    (hx2 : x ≤ max c.p1_bitval c.p2_bitval)
    (hfault : R_Click.bitval2mA c (some ((x : ℕ) : ℚ)) = some m) :
    |(T_Click.mA2bitval c m : ℤ) - (x : ℤ)| ≤ 1 := by
  obtain ⟨-, b, hb, hm⟩ := bitval2mA_some_gt hfault
  rw [Option.some.injEq] at hb
  subst hb
  have hbQ : ((c.p2_bitval : ℚ) - (c.p1_bitval : ℚ)) ≠ 0 :=
    sub_ne_zero.mpr (by exact_mod_cast hbit.symm)
  have hmQ : (c.p2_mA - c.p1_mA) ≠ 0 := sub_ne_zero.mpr hmA.symm
  have key : (m - c.p1_mA) / (c.p2_mA - c.p1_mA) *
      ((c.p2_bitval : ℚ) - (c.p1_bitval : ℚ)) + (c.p1_bitval : ℚ) = (x : ℚ) := by
    subst hm
    unfold R_Click.mA_of_bitval
    field_simp
    ring
  have hxlt : x < 65536 := lt_of_le_of_lt hx2 (max_lt hb1 hb2)
  unfold T_Click.mA2bitval
  rw [key, round_natCast, Int.toNat_natCast, Nat.mod_eq_of_lt hxlt]
  simp

/-- C7 witness: the scenario calibration at raw value 2400 (current 12 mA)
round-trips to within ±1 bit. -/
theorem claim_C7_witness :
    R_Click.bitval2mA calibQ (some ((2400 : ℕ) : ℚ)) = some 12 ∧
      |(T_Click.mA2bitval calibQ 12 : ℤ) - ((2400 : ℕ) : ℤ)| ≤ 1 := by
  have hf : R_Click.bitval2mA calibQ (some ((2400 : ℕ) : ℚ)) = some 12 := by
    norm_num [R_Click.bitval2mA, R_Click.mA_of_bitval, calibQ, R_CLICK_FAULT_mA]
  exact ⟨hf, claim_C7 calibQ 2400 12 (by norm_num [calibQ]) (by norm_num [calibQ])
    (by norm_num [calibQ]) (by norm_num [calibQ]) (by norm_num [calibQ])
    (by norm_num [calibQ]) (by norm_num [calibQ]) hf⟩

/-- C10: for every input current, the high byte transferred by `set_mA` has
upper nibble `0b0011` (the DAC configuration bits of `0x30`) and lower
nibble equal to bits 11–8 of the computed bit value: the `& 0x0F` mask is
applied before `0x30` is OR-ed in, so an oversized computed bit value can
never corrupt the configuration bits. -/
theorem claim_C10 {α : Type} [LinearOrderedField α] [FloorRing α]
    (t : T_Click α) (mA : α) :
    (T_Click.set_mA t mA).2.1 / 16 = 3 ∧
    (T_Click.set_mA t mA).2.1 % 16 =
      T_Click.mA2bitval t.calib_ mA / 256 % 16 := by
  simp only [T_Click.set_mA]
  have ha : (T_Click.mA2bitval t.calib_ mA >>> 8) &&& 15 < 16 := by
    have := Nat.and_lt_two_pow (T_Click.mA2bitval t.calib_ mA >>> 8)
      (show (15 : ℕ) < 2 ^ 4 by norm_num)
    norm_num at this
    exact this
  have hor : ∀ a : ℕ, a < 16 → (a ||| 48) = 48 + a := by decide
  have hrw : (T_Click.mA2bitval t.calib_ mA >>> 8) &&& 15 =
      T_Click.mA2bitval t.calib_ mA / 256 % 16 := by
    rw [Nat.shiftRight_eq_div_pow]
    have h2 := Nat.and_pow_two_sub_one_eq_mod
      (T_Click.mA2bitval t.calib_ mA / 2 ^ 8) 4
    norm_num at h2 ⊢
    exact h2
  rw [hor _ ha, hrw] at *
  omega

/-- C10 witness: a concrete call (5 mA on the scenario device) whose high
byte has upper nibble `0b0011` and lower nibble equal to bits 11–8 of the
computed bit value. -/
theorem claim_C10_witness :
    (T_Click.set_mA tclickQ 5).2.1 / 16 = 3 ∧
    (T_Click.set_mA tclickQ 5).2.1 % 16 =
      T_Click.mA2bitval tclickQ.calib_ 5 / 256 % 16 :=
  claim_C10 tclickQ 5

end RTClick
